import Mathlib

/-!
Shallow embedding of `backend/sam3_service.py` (the SAM3 interactive
segmentation service).  Images are grids of RGB pixels, masks are grids of
rational probability values, and the external model/processor is an opaque
oracle (`Ext`) returning `Except`-valued results, mirroring Python
exceptions.  The per-session store is an association list keyed by the
caller-supplied session id.  File output is modelled by returning the image
that `crop_from_mask` would save; an error result writes nothing.
-/

namespace Sam3

/-- An RGB pixel, value range 0..255 as in a decoded 8-bit image. -/
abbrev Pixel := Nat × Nat × Nat

/-- A decoded RGB image: rows of pixels (`numpy` axis 0 = rows). -/
abbrev Image := List (List Pixel)

/-- A mask from the model: a 2-D grid of probability/logit values. -/
abbrev Mask := List (List ℚ)

/-- One logit grid, as in the third return of `predict_inst`. -/
abbrev Logits := List (List ℚ)

/-- Width of an image as PIL reports it (`image.size[0]`): row length. -/
def imgWidth (img : Image) : Nat := (img.headD []).length

/-- Height of an image (`image.size[1]`): number of rows. -/
def imgHeight (img : Image) : Nat := img.length

/-- A session record, mirroring the dict stored in `self.sessions`.
`lastMasks`/`lastScores` are `none` both when the key is absent (fresh
session) and when stored as Python `None`, matching the check in
`crop_from_mask`. `logits` holds the slice `logits[best:best+1]`. -/
structure Session where
  state : Nat
  image : Image
  width : Nat
  height : Nat
  imagePath : String
  logits : Option (List Logits)
  lastMasks : Option (List Mask)
  lastScores : Option (List ℚ)

/-- The session store `self.sessions`: an association list with unique keys. -/
abbrev Sessions := List (String × Session)

/-- Dictionary lookup `self.sessions[sid]`. -/
def lookupSession : Sessions → String → Option Session
  | [], _ => none
  | (k, s) :: rest, sid => if k = sid then some s else lookupSession rest sid

/-- Dictionary assignment `self.sessions[sid] = s` (insert or replace). -/
def insertSession : Sessions → String → Session → Sessions
  | [], sid, s => [(sid, s)]
  | (k, t) :: rest, sid, s =>
      if k = sid then (k, s) :: rest else (k, t) :: insertSession rest sid s

/-- Dictionary deletion `del self.sessions[sid]`. -/
def deleteSession : Sessions → String → Sessions
  | [], _ => []
  | (k, t) :: rest, sid =>
      if k = sid then rest else (k, t) :: deleteSession rest sid

/-- Keyword arguments assembled by `predict_click` for `predict_inst`. -/
structure PredictKwargs where
  pointCoords : List (ℚ × ℚ)
  pointLabels : List ℤ
  multimaskOutput : Bool
  maskInput : Option (List Logits)

/-- Return value of the model's `predict_inst`. -/
structure PredictOut where
  masks : List Mask
  scores : List ℚ
  logits : List Logits

/-- Return value of the processor's `set_text_prompt`. -/
structure TextOut where
  masks : List Mask
  scores : List ℚ
  boxes : Option (List (List ℚ))

/-- The external capabilities the service calls: PIL image decoding and the
SAM3 model/processor.  `Except.error e` models a raised exception whose
`str(e)` is `e`. -/
structure Ext where
  openImage : String → Except String Image
  setImage : Image → Except String Nat
  predictInst : Nat → PredictKwargs → Except String PredictOut
  setTextPrompt : Nat → String → Except String TextOut

/-- Truncation toward zero, as `numpy.astype` does for floats. -/
def truncTowardZero (q : ℚ) : ℤ := if 0 ≤ q then ⌊q⌋ else -⌊-q⌋

/-- `astype(np.uint8)`: truncate and wrap into 0..255. -/
def toUint8 (q : ℚ) : Nat := ((truncTowardZero q).emod 256).toNat

/-- `(mask * 255).astype(np.uint8)`: the single-channel image rendered for
transport (the PNG/base64 wrapping is a lossless encoding of this grid). -/
def encodeMask (m : Mask) : List (List Nat) :=
  m.map (fun row => row.map (fun v => toUint8 (v * 255)))

/-- The image `crop_from_mask` saves: RGBA in transparent mode, RGB otherwise. -/
inductive CropImage where
  | rgba : List (List (Nat × Nat × Nat × Nat)) → CropImage
  | rgb : Image → CropImage
  deriving DecidableEq

/-- Successful `crop_from_mask` payload, including the saved image. -/
structure CropOk where
  outputPath : String
  bbox : List ℤ
  cropWidth : ℤ
  cropHeight : ℤ
  maskArea : Nat
  savedImage : CropImage
  deriving DecidableEq

/-- Success payloads of the six commands. -/
inductive Payload where
  | loaded (width height : Nat) (message : String)
  | predicted (masks : List (List (List Nat))) (scores : List ℚ)
      (numMasks : Nat) (message : String)
  | textPredicted (masks : List (List (List Nat))) (scores : List ℚ)
      (numInstances : Nat) (boxes : Option (List (List ℚ))) (message : String)
  | cleared (message : String)
  | cropped (r : CropOk)
  | pong (message : String)
  deriving DecidableEq

/-- A response object: either `{success: true, ...payload}` or
`{success: false, error: e}` — there is no third shape. -/
inductive Response where
  | ok (p : Payload)
  | fail (error : String)
  deriving DecidableEq

/-- The `success` boolean every response carries. -/
def Response.success : Response → Bool
  | .ok _ => true
  | .fail _ => false

/-- Decidable equality on `Except`, for evaluating concrete crop results. -/
instance {e a : Type} [DecidableEq e] [DecidableEq a] : DecidableEq (Except e a) :=
  fun x y =>
    match x, y with
    | .error e1, .error e2 =>
        if h : e1 = e2 then isTrue (congrArg Except.error h)
        else isFalse (fun hc => h (Except.error.inj hc))
    | .ok r1, .ok r2 =>
        if h : r1 = r2 then isTrue (congrArg Except.ok h)
        else isFalse (fun hc => h (Except.ok.inj hc))
    | .error _, .ok _ => isFalse (fun hc => Except.noConfusion hc)
    | .ok _, .error _ => isFalse (fun hc => Except.noConfusion hc)

/-- The binarization threshold 0.5, stored pre-normalized so that
comparisons against it evaluate by kernel reduction. -/
def half : ℚ := ⟨1, 2, by decide, Nat.coprime_one_left 2⟩

/-- `mask_np > 0.5`: binarize a mask at threshold one half. -/
def maskBool (m : Mask) : List (List Bool) :=
  m.map (fun row => row.map (fun v => decide (half < v)))

/-- Foreground at pixel `(i, j)` (row `i`, column `j`): the mask value
exceeds the 0.5 binarization threshold.  Out-of-range reads default to 0,
which is never foreground. -/
def Fg (mask : Mask) (i j : Nat) : Prop :=
  1 / 2 < (mask.getD i []).getD j 0

instance (mask : Mask) (i j : Nat) : Decidable (Fg mask i j) :=
  inferInstanceAs (Decidable ((1 : ℚ) / 2 < (mask.getD i []).getD j 0))

/-- `np.any(mask_bool, axis=1)`: per-row foreground flag. -/
def rowsAny (mb : List (List Bool)) : List Bool :=
  mb.map (fun row => row.any id)

/-- `np.any(mask_bool, axis=0)`: per-column foreground flag, columns `0..width-1`. -/
def colsAny (mb : List (List Bool)) (width : Nat) : List Bool :=
  (List.range width).map (fun j => mb.any (fun row => row.getD j false))

/-- `np.where(flags)[0][0]`: index of the first `true`, if any. -/
def firstTrue : List Bool → Option Nat
  | [] => none
  | b :: bs => if b then some 0 else (firstTrue bs).map (· + 1)

/-- `np.where(flags)[0][-1]`: index of the last `true`, if any. -/
def lastTrue : List Bool → Option Nat
  | [] => none
  | b :: bs =>
      match lastTrue bs with
      | some i => some (i + 1)
      | none => if b then some 0 else none

/-- `np.argmax`: index of the first occurrence of the maximum value
(0 on the empty list, where numpy would raise instead — `predict_click`
models that raise separately). -/
def argmaxIdx : List ℚ → Nat
  | [] => 0
  | [_] => 0
  | v :: w :: rest =>
      let j := argmaxIdx (w :: rest)
      if v < (w :: rest).getD j 0 then j + 1 else 0

/-- `a[r1:r2, c1:c2]` on a 2-D array with nonnegative bounds. -/
def slice2d (g : List (List α)) (r1 r2 c1 c2 : Nat) : List (List α) :=
  ((g.drop r1).take (r2 - r1)).map (fun row => (row.drop c1).take (c2 - c1))

/-- `result = full_like(fill); result[mask_region] = crop_region[mask_region]`:
pointwise composite keeping mask pixels, filling the rest. -/
def maskedFill (fill : Pixel) (crop : Image) (mreg : List (List Bool)) : Image :=
  List.zipWith
    (fun prow brow => List.zipWith (fun p b => if b then p else fill) prow brow)
    crop mreg

/-- `np.dstack([crop_region, alpha])` with `alpha = mask_region * 255`. -/
def withAlpha (crop : Image) (mreg : List (List Bool)) :
    List (List (Nat × Nat × Nat × Nat)) :=
  List.zipWith
    (fun prow brow =>
      List.zipWith (fun (p : Pixel) b => (p.1, p.2.1, p.2.2, if b then (255 : Nat) else 0))
        prow brow)
    crop mreg

/-- `mask_region.sum()`: number of foreground pixels in the cropped mask. -/
def countForeground (mreg : List (List Bool)) : Nat :=
  (mreg.map (fun row => row.countP id)).sum

/-- The geometry core of `crop_from_mask` (lines after the mask is selected):
binarize, bounding box, padding/clamping, slicing, background compositing.
The saved file is modelled by the `savedImage` field of the result. -/
def cropMask (image : Image) (mask : Mask) (outputPath : String)
    (backgroundMode : String) (padding : ℤ) : Except String CropOk :=
  let mb := maskBool mask
  let height := mask.length
  let width := (mask.headD []).length
  match firstTrue (rowsAny mb), lastTrue (rowsAny mb),
        firstTrue (colsAny mb width), lastTrue (colsAny mb width) with
  | some rmin, some rmax, some cmin, some cmax =>
      let rlo : ℤ := max 0 ((rmin : ℤ) - padding)
      let rhi : ℤ := min ((height : ℤ) - 1) ((rmax : ℤ) + padding)
      let clo : ℤ := max 0 ((cmin : ℤ) - padding)
      let chi : ℤ := min ((width : ℤ) - 1) ((cmax : ℤ) + padding)
      let bbox : List ℤ := [clo, rlo, chi, rhi]
      let cropRegion := slice2d image rlo.toNat (rhi.toNat + 1) clo.toNat (chi.toNat + 1)
      let maskRegion := slice2d mb rlo.toNat (rhi.toNat + 1) clo.toNat (chi.toNat + 1)
      let saved : Except String CropImage :=
        if backgroundMode = "transparent" then
          .ok (.rgba (withAlpha cropRegion maskRegion))
        else if backgroundMode = "white" then
          .ok (.rgb (maskedFill (255, 255, 255) cropRegion maskRegion))
        else if backgroundMode = "black" then
          .ok (.rgb (maskedFill (0, 0, 0) cropRegion maskRegion))
        else if backgroundMode = "original" then
          .ok (.rgb cropRegion)
        else
          .error ("Unknown background_mode: " ++ backgroundMode)
      saved.map (fun img =>
        { outputPath := outputPath
          bbox := bbox
          cropWidth := chi - clo
          cropHeight := rhi - rlo
          maskArea := countForeground maskRegion
          savedImage := img })
  | _, _, _, _ => .error "Mask is empty"

/-- Python list indexing `masks[i]`: nonnegative indices from the front,
negative ones from the back, `IndexError` beyond either end. -/
def pyIndex (n : Nat) (i : ℤ) : Except String Nat :=
  if 0 ≤ i then
    if i < (n : ℤ) then .ok i.toNat else .error "list index out of range"
  else
    if -(n : ℤ) ≤ i then .ok ((n : ℤ) + i).toNat else .error "list index out of range"

/-- Turn the crop core's result into a response: a raised exception becomes
the failure response, a crop success the `cropped` payload. -/
def liftCrop : Except String CropOk → Response
  | .error e => .fail e
  | .ok r => .ok (.cropped r)

/-- `crop_from_mask(session_id, mask_index, output_path, background_mode, padding)`. -/
def cropFromMask (svc : Sessions) (sessionId : String) (maskIndex : ℤ)
    (outputPath backgroundMode : String) (padding : ℤ) : Response :=
  match lookupSession svc sessionId with
  | none => .fail ("Session " ++ sessionId ++ " not found")
  | some sess =>
      match sess.lastMasks with
      | none => .fail "No masks available. Run a prediction first."
      | some masks =>
          if (masks.length : ℤ) ≤ maskIndex then
            .fail ("Mask index " ++ toString maskIndex ++
              " out of range (have " ++ toString masks.length ++ " masks)")
          else
            match pyIndex masks.length maskIndex with
            | .error e => .fail e
            | .ok i =>
                liftCrop (cropMask sess.image (masks.getD i []) outputPath
                  backgroundMode padding)

/-- `load_image(image_path, session_id)`: decode, set the image on the model,
then create/replace the session (only after both external steps succeed). -/
def loadImage (ext : Ext) (svc : Sessions) (imagePath sessionId : String) :
    Sessions × Response :=
  match ext.openImage imagePath with
  | .error e => (svc, .fail e)
  | .ok image =>
      match ext.setImage image with
      | .error e => (svc, .fail e)
      | .ok st =>
          let sess : Session :=
            { state := st
              image := image
              width := imgWidth image
              height := imgHeight image
              imagePath := imagePath
              logits := none
              lastMasks := none
              lastScores := none }
          (insertSession svc sessionId sess,
            .ok (.loaded (imgWidth image) (imgHeight image) "Image loaded successfully"))

/-- The kwargs `predict_click` builds: prior logits are attached only when
the flag is set and the session has some (`if use_previous_logits and
session['logits'] is not None`). -/
def mkKwargs (sess : Session) (points : List (ℚ × ℚ)) (labels : List ℤ)
    (multimaskOutput usePreviousLogits : Bool) : PredictKwargs :=
  { pointCoords := points
    pointLabels := labels
    multimaskOutput := multimaskOutput
    maskInput := if usePreviousLogits && sess.logits.isSome then sess.logits else none }

/-- `predict_click(session_id, points, labels, multimask_output,
use_previous_logits)`.  On model success the session stores the best mask's
logits slice `logits[best:best+1]` (guarded by `len(logits) > 0`) and the
full mask/score sequences; `np.argmax` on an empty score array raises, which
surfaces as an error response with the session untouched. -/
def predictClick (ext : Ext) (svc : Sessions) (sessionId : String)
    (points : List (ℚ × ℚ)) (labels : List ℤ)
    (multimaskOutput usePreviousLogits : Bool) : Sessions × Response :=
  match lookupSession svc sessionId with
  | none => (svc, .fail ("Session " ++ sessionId ++ " not found"))
  | some sess =>
      match ext.predictInst sess.state
          (mkKwargs sess points labels multimaskOutput usePreviousLogits) with
      | .error e => (svc, .fail e)
      | .ok out =>
          if 0 < out.logits.length ∧ out.scores.length = 0 then
            (svc, .fail "attempt to get argmax of an empty sequence")
          else
            let sess1 :=
              if 0 < out.logits.length then
                { sess with logits := some ((out.logits.drop (argmaxIdx out.scores)).take 1) }
              else sess
            let sess2 := { sess1 with lastMasks := some out.masks, lastScores := some out.scores }
            (insertSession svc sessionId sess2,
              .ok (.predicted (out.masks.map encodeMask) out.scores out.masks.length
                "Segmentation successful"))

/-- `predict_text(session_id, prompt)`: runs the text prompt and returns the
instances; the session record is not modified. -/
def predictText (ext : Ext) (svc : Sessions) (sessionId prompt : String) :
    Sessions × Response :=
  match lookupSession svc sessionId with
  | none => (svc, .fail ("Session " ++ sessionId ++ " not found"))
  | some sess =>
      match ext.setTextPrompt sess.state prompt with
      | .error e => (svc, .fail e)
      | .ok out =>
          (svc, .ok (.textPredicted (out.masks.map encodeMask) out.scores
            out.masks.length out.boxes
            ("Found " ++ toString out.masks.length ++ " instances")))

/-- `clear_session(session_id)`. -/
def clearSession (svc : Sessions) (sessionId : String) : Sessions × Response :=
  match lookupSession svc sessionId with
  | some _ => (deleteSession svc sessionId, .ok (.cleared "Session cleared"))
  | none => (svc, .fail "Session not found")

/-- A decoded request object, one constructor per command shape;
`unknown` is any other value of the `command` field. -/
inductive Request where
  | load (imagePath sessionId : String)
  | click (sessionId : String) (points : List (ℚ × ℚ)) (labels : List ℤ)
      (multimaskOutput usePreviousLogits : Bool)
  | text (sessionId prompt : String)
  | clear (sessionId : String)
  | crop (sessionId : String) (maskIndex : ℤ) (outputPath backgroundMode : String)
      (padding : ℤ)
  | ping
  | unknown (name : String)

/-- `handle_command`: route a decoded request to its handler. -/
def handleCommand (ext : Ext) (svc : Sessions) : Request → Sessions × Response
  | .load p sid => loadImage ext svc p sid
  | .click sid pts lbls mm upl => predictClick ext svc sid pts lbls mm upl
  | .text sid prompt => predictText ext svc sid prompt
  | .clear sid => clearSession svc sid
  | .crop sid i path bg pad => (svc, cropFromMask svc sid i path bg pad)
  | .ping => (svc, .ok (.pong "pong"))
  | .unknown name => (svc, .fail ("Unknown command: " ++ name))

/-- One input line after stripping: blank (skipped), invalid JSON, or a
decoded request object. -/
inductive ReqLine where
  | empty
  | malformed
  | req (r : Request)

/-- The body of the `run` loop for one line: blank lines produce no
response, invalid JSON produces the fixed error response, and a decoded
request is dispatched (handler failures already arrive as `.fail`). -/
def processLine (ext : Ext) (svc : Sessions) : ReqLine → Sessions × Option Response
  | .empty => (svc, none)
  | .malformed => (svc, some (.fail "Invalid JSON"))
  | .req r =>
      let sr := handleCommand ext svc r
      (sr.1, some sr.2)

/-- The `run` loop after the readiness signal: fold over the input lines,
emitting the responses in order. -/
def runLoop (ext : Ext) (svc : Sessions) : List ReqLine → Sessions × List Response
  | [] => (svc, [])
  | l :: rest =>
      let sr := processLine ext svc l
      let rest2 := runLoop ext sr.1 rest
      (rest2.1, match sr.2 with | none => rest2.2 | some r => r :: rest2.2)

/-! ### Concrete fixtures used by witnesses and counterexamples -/

def sampleImage : Image := [[(5, 5, 5)]]

def sampleMask : Mask := [[1]]

def sessFresh : Session :=
  { state := 0, image := sampleImage, width := 1, height := 1,
    imagePath := "img.png", logits := none, lastMasks := none, lastScores := none }

def sessWithMask : Session :=
  { sessFresh with lastMasks := some [sampleMask], lastScores := some [1] }

def svcFresh : Sessions := [("s1", sessFresh)]

def svcWithMask : Sessions := [("s1", sessWithMask)]

def outOne : PredictOut := { masks := [sampleMask], scores := [1], logits := [[[2]]] }

def textOne : TextOut := { masks := [sampleMask], scores := [1], boxes := none }

def extOk : Ext :=
  { openImage := fun _ => .ok sampleImage
    setImage := fun _ => .ok 0
    predictInst := fun _ _ => .ok outOne
    setTextPrompt := fun _ _ => .ok textOne }

def extFail : Ext :=
  { openImage := fun _ => .error "boom"
    setImage := fun _ => .error "boom"
    predictInst := fun _ _ => .error "boom"
    setTextPrompt := fun _ _ => .error "boom" }

def extOpenOkSetFail : Ext := { extFail with openImage := fun _ => .ok sampleImage }

def maskZero : Mask := [[0]]

def img2 : Image := [[(1, 1, 1), (2, 2, 2)], [(3, 3, 3), (4, 4, 4)]]

def mask2 : Mask := [[1, 0], [0, 0]]

def res7 : CropOk :=
  { outputPath := "o.png", bbox := [0, 0, 1, 1], cropWidth := 1, cropHeight := 1,
    maskArea := 1, savedImage := .rgb [[(1, 1, 1), (2, 2, 2)], [(3, 3, 3), (4, 4, 4)]] }

def img12 : Image := [[(9, 9, 9), (7, 7, 7)]]

def mask12 : Mask := [[1, 0]]

def res9w : CropOk :=
  { outputPath := "o.png", bbox := [0, 0, 1, 0], cropWidth := 1, cropHeight := 0,
    maskArea := 1, savedImage := .rgb [[(9, 9, 9), (255, 255, 255)]] }

/-! ### Helper lemmas about the store and the numeric utilities -/

theorem lookup_insert_self (svc : Sessions) (sid : String) (s : Session) :
    lookupSession (insertSession svc sid s) sid = some s := by
  induction svc with
  | nil => simp [insertSession, lookupSession]
  | cons kv rest ih =>
      by_cases h : kv.1 = sid
      · simp [insertSession, lookupSession, h]
      · simp [insertSession, lookupSession, h, ih]

theorem argmaxIdx_lt_length : ∀ (l : List ℚ), l ≠ [] → argmaxIdx l < l.length := by
  intro l
  induction l with
  | nil => intro h; exact absurd rfl h
  | cons v tail ih =>
      intro _
      cases tail with
      | nil => simp [argmaxIdx]
      | cons w rest =>
          have hlt := ih (by simp)
          simp only [argmaxIdx]
          split
          · simpa using Nat.succ_lt_succ hlt
          · simp

theorem argmaxIdx_is_max : ∀ (l : List ℚ) (j : Nat), j < l.length →
    l.getD j 0 ≤ l.getD (argmaxIdx l) 0 := by
  intro l
  induction l with
  | nil => intro j hj; simp at hj
  | cons v tail ih =>
      intro j hj
      cases tail with
      | nil =>
          cases j with
          | zero => simp [argmaxIdx]
          | succ j2 => simp at hj
      | cons w rest =>
          simp only [argmaxIdx]
          split
          · rename_i hvm
            cases j with
            | zero =>
                simpa [List.getD_cons_succ] using le_of_lt hvm
            | succ j2 =>
                simp only [List.getD_cons_succ]
                exact ih j2 (by simpa using hj)
          · rename_i hvm
            push_neg at hvm
            cases j with
            | zero => simp
            | succ j2 =>
                simp only [List.getD_cons_succ, List.getD_cons_zero]
                exact le_trans (ih j2 (by simpa using hj)) hvm

theorem argmaxIdx_first : ∀ (l : List ℚ) (j : Nat), j < argmaxIdx l →
    l.getD j 0 < l.getD (argmaxIdx l) 0 := by
  intro l
  induction l with
  | nil => intro j hj; simp [argmaxIdx] at hj
  | cons v tail ih =>
      intro j hj
      cases tail with
      | nil => simp [argmaxIdx] at hj
      | cons w rest =>
          simp only [argmaxIdx] at hj ⊢
          split
          · rename_i hvm
            cases j with
            | zero => simpa [List.getD_cons_succ] using hvm
            | succ j2 =>
                simp only [List.getD_cons_succ]
                refine ih j2 ?_
                rw [if_pos hvm] at hj
                exact Nat.lt_of_succ_lt_succ hj
          · rename_i hvm
            rw [if_neg hvm] at hj
            simp at hj

theorem firstTrue_none : ∀ (l : List Bool), firstTrue l = none →
    ∀ j, l.getD j false = false := by
  intro l
  induction l with
  | nil => intro _ j; simp
  | cons b bs ih =>
      intro h j
      simp only [firstTrue] at h
      split at h
      · exact absurd h (by simp)
      · rename_i hb
        cases j with
        | zero => simpa using hb
        | succ j2 =>
            simp only [List.getD_cons_succ]
            exact ih (by simpa using h) j2

theorem firstTrue_spec : ∀ (l : List Bool) (i : Nat), firstTrue l = some i →
    l.getD i false = true ∧ ∀ j, j < i → l.getD j false = false := by
  intro l
  induction l with
  | nil => intro i h; simp [firstTrue] at h
  | cons b bs ih =>
      intro i h
      simp only [firstTrue] at h
      split at h
      · rename_i hb
        have : i = 0 := by simpa using h.symm
        subst this
        exact ⟨by simpa using hb, fun j hj => absurd hj (by simp)⟩
      · rename_i hb
        rcases Option.map_eq_some'.mp h with ⟨i2, hi2, hadd⟩
        subst hadd
        rcases ih i2 hi2 with ⟨h1, h2⟩
        refine ⟨by simpa using h1, ?_⟩
        intro j hj
        cases j with
        | zero => simpa using hb
        | succ j2 =>
            simp only [List.getD_cons_succ]
            exact h2 j2 (by omega)

theorem lastTrue_none : ∀ (l : List Bool), lastTrue l = none →
    ∀ j, l.getD j false = false := by
  intro l
  induction l with
  | nil => intro _ j; simp
  | cons b bs ih =>
      intro h j
      simp only [lastTrue] at h
      split at h
      · exact absurd h (by simp)
      · rename_i htail
        split at h
        · exact absurd h (by simp)
        · rename_i hb
          cases j with
          | zero => simpa using hb
          | succ j2 =>
              simp only [List.getD_cons_succ]
              exact ih htail j2

theorem lastTrue_spec : ∀ (l : List Bool) (i : Nat), lastTrue l = some i →
    i < l.length ∧ l.getD i false = true ∧ ∀ j, i < j → l.getD j false = false := by
  intro l
  induction l with
  | nil => intro i h; simp [lastTrue] at h
  | cons b bs ih =>
      intro i h
      simp only [lastTrue] at h
      split at h
      · rename_i i2 htail
        have : i = i2 + 1 := by simpa using h.symm
        subst this
        rcases ih i2 htail with ⟨hl, h1, h2⟩
        refine ⟨by simpa using hl, by simpa using h1, ?_⟩
        intro j hj
        cases j with
        | zero => omega
        | succ j2 =>
            simp only [List.getD_cons_succ]
            exact h2 j2 (by omega)
      · rename_i htail
        split at h
        · rename_i hb
          have : i = 0 := by simpa using h.symm
          subst this
          refine ⟨by simp, by simpa using hb, ?_⟩
          intro j hj
          cases j with
          | zero => omega
          | succ j2 =>
              simp only [List.getD_cons_succ]
              exact lastTrue_none bs htail j2
        · exact absurd h (by simp)

theorem firstTrue_isSome (l : List Bool) (i : Nat) (h : l.getD i false = true) :
    ∃ k, firstTrue l = some k := by
  cases hf : firstTrue l with
  | none => exact absurd (firstTrue_none l hf i) (by rw [h]; simp)
  | some k => exact ⟨k, rfl⟩

theorem lastTrue_isSome (l : List Bool) (i : Nat) (h : l.getD i false = true) :
    ∃ k, lastTrue l = some k := by
  cases hf : lastTrue l with
  | none => exact absurd (lastTrue_none l hf i) (by rw [h]; simp)
  | some k => exact ⟨k, rfl⟩

theorem firstTrue_lt_length (l : List Bool) (i : Nat) (h : firstTrue l = some i) :
    i < l.length := by
  by_contra hge
  have := (firstTrue_spec l i h).1
  rw [List.getD_eq_default] at this
  · exact absurd this (by simp)
  · omega

theorem firstTrue_le_lastTrue (l : List Bool) (a b : Nat)
    (ha : firstTrue l = some a) (hb : lastTrue l = some b) : a ≤ b := by
  by_contra hlt
  have h1 := (lastTrue_spec l b hb).2.1
  have h2 := (firstTrue_spec l a ha).2 b (by omega)
  rw [h1] at h2
  exact absurd h2 (by simp)

theorem half_eq : half = 1 / 2 := by
  rw [half, Rat.mk'_eq_divInt, Rat.divInt_eq_div]
  norm_num

theorem Fg_bounds (mask : Mask) (i j : Nat) (h : Fg mask i j) :
    i < mask.length ∧ j < (mask.getD i []).length := by
  simp only [Fg] at h
  constructor
  · by_contra hc
    have hm : mask.getD i [] = [] := List.getD_eq_default _ _ (by omega)
    rw [hm, List.getD_nil] at h
    exact absurd h (by norm_num)
  · by_contra hc
    have hm : (mask.getD i []).getD j 0 = 0 := List.getD_eq_default _ _ (by omega)
    rw [hm] at h
    exact absurd h (by norm_num)

theorem maskBool_entry (mask : Mask) (i j : Nat) :
    ((maskBool mask).getD i []).getD j false
      = decide ((1 : ℚ) / 2 < (mask.getD i []).getD j 0) := by
  rcases hmi : mask[i]? with _ | row
  · have hlen : mask.length ≤ i := by
      by_contra hc
      rw [List.getElem?_eq_getElem (by omega)] at hmi
      exact Option.noConfusion hmi
    have hmb : (maskBool mask).getD i [] = [] :=
      List.getD_eq_default _ _ (by simpa [maskBool] using hlen)
    have hm : mask.getD i [] = [] := List.getD_eq_default _ _ hlen
    rw [hmb, hm]
    simp only [List.getD_nil]
    have : ¬((1 : ℚ) / 2 < 0) := by norm_num
    simp [this]
  · have h1 : (maskBool mask).getD i [] = row.map (fun v => decide (half < v)) := by
      rw [List.getD_eq_getElem?_getD, maskBool, List.getElem?_map, hmi]
      rfl
    have h2 : mask.getD i [] = row := by
      rw [List.getD_eq_getElem?_getD, hmi]
      rfl
    rw [h1, h2]
    rcases hij : row[j]? with _ | v
    · have hlen : row.length ≤ j := by
        by_contra hc
        rw [List.getElem?_eq_getElem (by omega)] at hij
        exact Option.noConfusion hij
      have hb : (row.map (fun v => decide (half < v))).getD j false = false :=
        List.getD_eq_default _ _ (by simpa using hlen)
      have hv : row.getD j 0 = 0 := List.getD_eq_default _ _ hlen
      rw [hb, hv]
      have : ¬((1 : ℚ) / 2 < 0) := by norm_num
      simp [this]
    · rw [List.getD_eq_getElem?_getD, List.getElem?_map, hij,
        List.getD_eq_getElem?_getD, hij, half_eq]
      rfl

theorem maskBool_entry_iff (mask : Mask) (i j : Nat) :
    (((maskBool mask).getD i []).getD j false = true) ↔ Fg mask i j := by
  rw [maskBool_entry]
  simp [Fg]

theorem any_id_iff_getD (l : List Bool) :
    l.any id = true ↔ ∃ j, l.getD j false = true := by
  rw [List.any_eq_true]
  constructor
  · rintro ⟨b, hb, hid⟩
    rcases List.mem_iff_getElem.mp hb with ⟨j, hj, rfl⟩
    refine ⟨j, ?_⟩
    rw [List.getD_eq_getElem?_getD, List.getElem?_eq_getElem hj]
    simpa using hid
  · rintro ⟨j, hj⟩
    by_cases h : j < l.length
    · refine ⟨l[j], List.getElem_mem h, ?_⟩
      rw [List.getD_eq_getElem?_getD, List.getElem?_eq_getElem h] at hj
      simpa using hj
    · rw [List.getD_eq_default _ _ (by omega)] at hj
      exact absurd hj (by simp)

theorem any_iff_index (mb : List (List Bool)) (f : List Bool → Bool) :
    mb.any f = true ↔ ∃ i, i < mb.length ∧ f (mb.getD i []) = true := by
  rw [List.any_eq_true]
  constructor
  · rintro ⟨row, hrow, hf⟩
    rcases List.mem_iff_getElem.mp hrow with ⟨i, hi, rfl⟩
    refine ⟨i, hi, ?_⟩
    rw [List.getD_eq_getElem?_getD, List.getElem?_eq_getElem hi]
    exact hf
  · rintro ⟨i, hi, hf⟩
    refine ⟨mb.getD i [], ?_, hf⟩
    rw [List.getD_eq_getElem?_getD, List.getElem?_eq_getElem hi]
    exact List.getElem_mem hi

theorem rowsAny_getD (mb : List (List Bool)) (i : Nat) :
    (rowsAny mb).getD i false = (mb.getD i []).any id := by
  rcases hmi : mb[i]? with _ | row
  · have hlen : mb.length ≤ i := by
      by_contra hc
      rw [List.getElem?_eq_getElem (by omega)] at hmi
      exact Option.noConfusion hmi
    have ha : (rowsAny mb).getD i false = false :=
      List.getD_eq_default _ _ (by simpa [rowsAny] using hlen)
    have hm : mb.getD i [] = [] := List.getD_eq_default _ _ hlen
    rw [ha, hm]
    rfl
  · rw [List.getD_eq_getElem?_getD, rowsAny, List.getElem?_map, hmi,
      List.getD_eq_getElem?_getD, hmi]
    rfl

theorem rowFlag_iff (mask : Mask) (i : Nat) :
    ((rowsAny (maskBool mask)).getD i false = true) ↔ ∃ j, Fg mask i j := by
  rw [rowsAny_getD, any_id_iff_getD]
  constructor
  · rintro ⟨j, hj⟩
    exact ⟨j, (maskBool_entry_iff mask i j).mp hj⟩
  · rintro ⟨j, hj⟩
    exact ⟨j, (maskBool_entry_iff mask i j).mpr hj⟩

theorem colsAny_getD (mb : List (List Bool)) (w j : Nat) (hj : j < w) :
    (colsAny mb w).getD j false = mb.any (fun row => row.getD j false) := by
  rw [colsAny, List.getD_eq_getElem?_getD, List.getElem?_map, List.getElem?_range hj]
  rfl

theorem colFlag_iff (mask : Mask) (w j : Nat) :
    ((colsAny (maskBool mask) w).getD j false = true)
      ↔ (j < w ∧ ∃ i, Fg mask i j) := by
  by_cases hj : j < w
  · rw [colsAny_getD _ _ _ hj, any_iff_index]
    constructor
    · rintro ⟨i, hi, hf⟩
      exact ⟨hj, i, (maskBool_entry_iff mask i j).mp hf⟩
    · rintro ⟨_, i, hf⟩
      have hb := Fg_bounds mask i j hf
      refine ⟨i, by simpa [maskBool] using hb.1, (maskBool_entry_iff mask i j).mpr hf⟩
  · have ha : (colsAny (maskBool mask) w).getD j false = false :=
      List.getD_eq_default _ _ (by simpa [colsAny] using (by omega : w ≤ j))
    rw [ha]
    simp only [Bool.false_eq_true, false_iff]
    rintro ⟨hc, _⟩
    omega

theorem length_rowsAny (mb : List (List Bool)) : (rowsAny mb).length = mb.length := by
  simp [rowsAny]

theorem length_colsAny (mb : List (List Bool)) (w : Nat) :
    (colsAny mb w).length = w := by
  simp [colsAny]

theorem except_map_ok {e a b : Type} (f : a → b) (x : Except e a) (y : b)
    (h : x.map f = .ok y) : ∃ v, x = .ok v ∧ y = f v := by
  cases x with
  | error err => exact absurd h (by simp [Except.map])
  | ok v =>
      refine ⟨v, rfl, ?_⟩
      have : Except.ok (f v) = (Except.ok y : Except e b) := h
      exact (Except.ok.inj this).symm

theorem exists_ok_map {e a b : Type} (f : a → b) (x : Except e a) (v : a)
    (h : x = .ok v) : ∃ r, x.map f = .ok r :=
  ⟨f v, by rw [h]; rfl⟩

theorem slice2d_entry {α : Type} (g : List (List α)) (r1 r2 c1 c2 r c : Nat) (d : α)
    (hr : r < r2 - r1) (hc : c < c2 - c1) :
    ((slice2d g r1 r2 c1 c2).getD r []).getD c d
      = (g.getD (r1 + r) []).getD (c1 + c) d := by
  have houter : (slice2d g r1 r2 c1 c2)[r]?
      = (g[r1 + r]?).map (fun row => (row.drop c1).take (c2 - c1)) := by
    rw [slice2d, List.getElem?_map, List.getElem?_take]
    rw [if_pos hr, List.getElem?_drop]
  rcases hgr : g[r1 + r]? with _ | row
  · rw [List.getD_eq_getElem?_getD _ r, houter, hgr,
      List.getD_eq_getElem?_getD _ (r1 + r), hgr]
    rfl
  · rw [List.getD_eq_getElem?_getD _ r, houter, hgr,
      List.getD_eq_getElem?_getD _ (r1 + r), hgr]
    simp only [Option.map_some', Option.getD_some]
    rcases hrc : row[c1 + c]? with _ | v
    · rw [List.getD_eq_getElem?_getD, List.getElem?_take, if_pos hc,
        List.getElem?_drop, hrc, List.getD_eq_getElem?_getD, hrc]
    · rw [List.getD_eq_getElem?_getD, List.getElem?_take, if_pos hc,
        List.getElem?_drop, hrc, List.getD_eq_getElem?_getD, hrc]

theorem maskedFill_entry (fill : Pixel) (crop : Image) (mreg : List (List Bool))
    (r c : Nat) (d : Pixel)
    (hr : r < (maskedFill fill crop mreg).length)
    (hc : c < ((maskedFill fill crop mreg).getD r []).length) :
    ((maskedFill fill crop mreg).getD r []).getD c d
      = if (mreg.getD r []).getD c false
        then (crop.getD r []).getD c d
        else fill := by
  rw [maskedFill, List.length_zipWith] at hr
  have hrc : r < crop.length := lt_of_lt_of_le hr inf_le_left
  have hrm : r < mreg.length := lt_of_lt_of_le hr inf_le_right
  have hcrop : crop[r]? = some crop[r] := List.getElem?_eq_getElem hrc
  have hmreg : mreg[r]? = some mreg[r] := List.getElem?_eq_getElem hrm
  have hrow : (maskedFill fill crop mreg).getD r []
      = List.zipWith (fun p b => if b then p else fill) crop[r] mreg[r] := by
    rw [List.getD_eq_getElem?_getD, maskedFill, List.getElem?_zipWith, hcrop, hmreg]
    rfl
  rw [hrow] at hc ⊢
  rw [List.length_zipWith] at hc
  have hcc : c < crop[r].length := lt_of_lt_of_le hc inf_le_left
  have hcm : c < mreg[r].length := lt_of_lt_of_le hc inf_le_right
  rw [List.getD_eq_getElem?_getD, List.getElem?_zipWith,
    List.getElem?_eq_getElem hcc, List.getElem?_eq_getElem hcm]
  rw [List.getD_eq_getElem?_getD mreg r, hmreg, List.getD_eq_getElem?_getD crop r, hcrop]
  simp only [Option.getD_some]
  rw [List.getD_eq_getElem?_getD, List.getElem?_eq_getElem hcm,
    List.getD_eq_getElem?_getD, List.getElem?_eq_getElem hcc]
  rfl

theorem slice2d_length_le {α : Type} (g : List (List α)) (r1 r2 c1 c2 : Nat) :
    (slice2d g r1 r2 c1 c2).length ≤ r2 - r1 := by
  rw [slice2d, List.length_map, List.length_take]
  exact inf_le_left

theorem slice2d_row_length_le {α : Type} (g : List (List α)) (r1 r2 c1 c2 r : Nat) :
    ((slice2d g r1 r2 c1 c2).getD r []).length ≤ c2 - c1 := by
  rcases hr : (slice2d g r1 r2 c1 c2)[r]? with _ | row
  · rw [List.getD_eq_getElem?_getD, hr]
    simp
  · rw [List.getD_eq_getElem?_getD, hr]
    simp only [Option.getD_some]
    rw [slice2d, List.getElem?_map] at hr
    rcases hx : ((g.drop r1).take (r2 - r1))[r]? with _ | orig
    · rw [hx] at hr
      exact Option.noConfusion hr
    · rw [hx, Option.map_some'] at hr
      have hrow : row = (orig.drop c1).take (c2 - c1) := (Option.some.inj hr).symm
      rw [hrow, List.length_take]
      exact inf_le_left

theorem tight_box_exists (mask : Mask) (i0 j0 : Nat) (hfg : Fg mask i0 j0)
    (hrect : ∀ row ∈ mask, row.length = (mask.headD []).length) :
    ∃ rmin rmax cmin cmax : Nat,
      firstTrue (rowsAny (maskBool mask)) = some rmin
      ∧ lastTrue (rowsAny (maskBool mask)) = some rmax
      ∧ firstTrue (colsAny (maskBool mask) (mask.headD []).length) = some cmin
      ∧ lastTrue (colsAny (maskBool mask) (mask.headD []).length) = some cmax := by
  have hb := Fg_bounds mask i0 j0 hfg
  have hrow : mask.getD i0 [] = mask[i0] := by
    simp [List.getD_eq_getElem?_getD, List.getElem?_eq_getElem hb.1]
  have hj0w : j0 < (mask.headD []).length := by
    have := hrect mask[i0] (List.getElem_mem hb.1)
    rw [← hrow] at this
    omega
  have hrflag : (rowsAny (maskBool mask)).getD i0 false = true :=
    (rowFlag_iff mask i0).mpr ⟨j0, hfg⟩
  have hcflag : (colsAny (maskBool mask) (mask.headD []).length).getD j0 false = true :=
    (colFlag_iff mask _ j0).mpr ⟨hj0w, i0, hfg⟩
  obtain ⟨rmin, hrmin⟩ := firstTrue_isSome _ i0 hrflag
  obtain ⟨rmax, hrmax⟩ := lastTrue_isSome _ i0 hrflag
  obtain ⟨cmin, hcmin⟩ := firstTrue_isSome _ j0 hcflag
  obtain ⟨cmax, hcmax⟩ := lastTrue_isSome _ j0 hcflag
  exact ⟨rmin, rmax, cmin, cmax, hrmin, hrmax, hcmin, hcmax⟩

theorem cropMask_ok_boxes (image : Image) (mask : Mask) (path mode : String)
    (padding : ℤ) (res : CropOk)
    (hok : cropMask image mask path mode padding = .ok res) :
    ∃ rmin rmax cmin cmax : Nat,
      firstTrue (rowsAny (maskBool mask)) = some rmin
      ∧ lastTrue (rowsAny (maskBool mask)) = some rmax
      ∧ firstTrue (colsAny (maskBool mask) (mask.headD []).length) = some cmin
      ∧ lastTrue (colsAny (maskBool mask) (mask.headD []).length) = some cmax := by
  rcases hf1 : firstTrue (rowsAny (maskBool mask)) with _ | rmin
  · simp only [cropMask, hf1] at hok
    exact absurd hok (by simp)
  rcases hf2 : lastTrue (rowsAny (maskBool mask)) with _ | rmax
  · simp only [cropMask, hf1, hf2] at hok
    exact absurd hok (by simp)
  rcases hf3 : firstTrue (colsAny (maskBool mask) (mask.headD []).length) with _ | cmin
  · simp only [cropMask, hf1, hf2, hf3] at hok
    exact absurd hok (by simp)
  rcases hf4 : lastTrue (colsAny (maskBool mask) (mask.headD []).length) with _ | cmax
  · simp only [cropMask, hf1, hf2, hf3, hf4] at hok
    exact absurd hok (by simp)
  exact ⟨rmin, rmax, cmin, cmax, rfl, rfl, rfl, rfl⟩

theorem maskedFill_slice_pointwise (image : Image) (mask : Mask) (fill : Pixel)
    (r1 r2 c1 c2 r c : Nat) (d : Pixel)
    (hr : r < (maskedFill fill (slice2d image r1 r2 c1 c2)
        (slice2d (maskBool mask) r1 r2 c1 c2)).length)
    (hc : c < ((maskedFill fill (slice2d image r1 r2 c1 c2)
        (slice2d (maskBool mask) r1 r2 c1 c2)).getD r []).length) :
    ((maskedFill fill (slice2d image r1 r2 c1 c2)
        (slice2d (maskBool mask) r1 r2 c1 c2)).getD r []).getD c d
      = if Fg mask (r1 + r) (c1 + c)
        then (image.getD (r1 + r) []).getD (c1 + c) d
        else fill := by
  have hent := maskedFill_entry fill (slice2d image r1 r2 c1 c2)
    (slice2d (maskBool mask) r1 r2 c1 c2) r c d hr hc
  have hrA : r < (slice2d image r1 r2 c1 c2).length := by
    rw [maskedFill, List.length_zipWith] at hr
    exact lt_of_lt_of_le hr inf_le_left
  have hrB : r < (slice2d (maskBool mask) r1 r2 c1 c2).length := by
    rw [maskedFill, List.length_zipWith] at hr
    exact lt_of_lt_of_le hr inf_le_right
  have hr2 : r < r2 - r1 :=
    lt_of_lt_of_le hrA (slice2d_length_le image r1 r2 c1 c2)
  have hA : (slice2d image r1 r2 c1 c2).getD r [] = (slice2d image r1 r2 c1 c2)[r] := by
    simp [List.getD_eq_getElem?_getD, List.getElem?_eq_getElem hrA]
  have hB : (slice2d (maskBool mask) r1 r2 c1 c2).getD r []
      = (slice2d (maskBool mask) r1 r2 c1 c2)[r] := by
    simp [List.getD_eq_getElem?_getD, List.getElem?_eq_getElem hrB]
  have hrow : (maskedFill fill (slice2d image r1 r2 c1 c2)
        (slice2d (maskBool mask) r1 r2 c1 c2)).getD r []
      = List.zipWith (fun p b => if b then p else fill)
          ((slice2d image r1 r2 c1 c2).getD r [])
          ((slice2d (maskBool mask) r1 r2 c1 c2).getD r []) := by
    rw [List.getD_eq_getElem?_getD, maskedFill, List.getElem?_zipWith,
      List.getElem?_eq_getElem hrA, List.getElem?_eq_getElem hrB, hA, hB]
    rfl
  have hc2 : c < c2 - c1 := by
    rw [hrow, List.length_zipWith] at hc
    have hcA : c < ((slice2d image r1 r2 c1 c2).getD r []).length :=
      lt_of_lt_of_le hc inf_le_left
    exact lt_of_lt_of_le hcA (slice2d_row_length_le image r1 r2 c1 c2 r)
  rw [hent, slice2d_entry (maskBool mask) r1 r2 c1 c2 r c false hr2 hc2,
    slice2d_entry image r1 r2 c1 c2 r c d hr2 hc2, maskBool_entry]
  by_cases hF : (1 : ℚ) / 2 < (mask.getD (r1 + r) []).getD (c1 + c) 0
  · simp [Fg, hF]
  · simp [Fg, hF]

/-! ### Claim theorems -/

/-- Claim C1, counterexample: on a freshly loaded session, a successful
`predict_text` returning one instance is followed by a `crop_from_mask`
with `mask_index = 0` that fails with the `NoMaskAvailable` message —
text-prediction results do not feed the crop operation as claimed. -/
theorem predictText_then_crop_counterexample :
    (predictText extOk svcFresh "s1" "a cat").2.success = true
  ∧ cropFromMask (predictText extOk svcFresh "s1" "a cat").1 "s1" 0 "out.png"
      "transparent" 10
      = Response.fail "No masks available. Run a prediction first." :=
  ⟨rfl, rfl⟩

/-- Claim C1, amended: `predict_text` never touches the session store, so
`lastMasks`/`lastScores` keep whatever point-prediction (or nothing) put
there; a `crop_from_mask` on a session whose `lastMasks` is still absent
fails with the `NoMaskAvailable` message even right after a successful
text prediction. -/
theorem predictText_leaves_store (ext : Ext) (svc : Sessions) (sid prompt : String) :
    (predictText ext svc sid prompt).1 = svc
  ∧ (∀ sess, lookupSession svc sid = some sess → sess.lastMasks = none →
      ∀ (i : ℤ) (path bg : String) (pad : ℤ),
        cropFromMask svc sid i path bg pad
          = Response.fail "No masks available. Run a prediction first.") := by
  constructor
  · rcases hls : lookupSession svc sid with _ | sess
    · simp [predictText, hls]
    · rcases hst : ext.setTextPrompt sess.state prompt with e | out <;>
        simp [predictText, hls, hst]
  · intro sess hs hm i path bg pad
    simp only [cropFromMask, hs, hm]

/-- Claim C1 witness: instantiation at the fixture session. -/
theorem predictText_leaves_store_witness :
    (predictText extOk svcFresh "s1" "p").1 = svcFresh
  ∧ cropFromMask svcFresh "s1" 0 "o.png" "transparent" 10
      = Response.fail "No masks available. Run a prediction first." :=
  ⟨(predictText_leaves_store extOk svcFresh "s1" "p").1,
   (predictText_leaves_store extOk svcFresh "s1" "p").2 sessFresh rfl rfl 0 "o.png"
     "transparent" 10⟩

/-- Claim C2, counterexample: with one stored mask, `crop_from_mask` with
`mask_index = -1` succeeds (Python negative indexing selects the last mask)
instead of failing with `MaskIndexOutOfRange`. -/
theorem crop_negative_index_counterexample :
    (cropFromMask svcWithMask "s1" (-1) "out.png" "original" 0).success = true := by
  decide

/-- Claim C2, amended: with `n` stored masks the call fails with the
`MaskIndexOutOfRange` message (naming the requested index and the count)
exactly when `mask_index >= n`; negative indices are not rejected:
`-n <= mask_index < 0` selects the mask at `n + mask_index` (Python
wrap-around), and `mask_index < -n` raises an `IndexError` surfaced as a
generic error. -/
theorem crop_mask_index_range (svc : Sessions) (sid : String) (sess : Session)
    (masks : List Mask) (i : ℤ) (path bg : String) (pad : ℤ)
    (hs : lookupSession svc sid = some sess) (hm : sess.lastMasks = some masks) :
    ((masks.length : ℤ) ≤ i →
        cropFromMask svc sid i path bg pad
          = Response.fail ("Mask index " ++ toString i ++ " out of range (have "
              ++ toString masks.length ++ " masks)"))
  ∧ (0 ≤ i → i < (masks.length : ℤ) →
        cropFromMask svc sid i path bg pad
          = liftCrop (cropMask sess.image (masks.getD i.toNat []) path bg pad))
  ∧ (-(masks.length : ℤ) ≤ i → i < 0 →
        cropFromMask svc sid i path bg pad
          = liftCrop (cropMask sess.image (masks.getD ((masks.length : ℤ) + i).toNat [])
              path bg pad))
  ∧ (i < -(masks.length : ℤ) →
        cropFromMask svc sid i path bg pad = Response.fail "list index out of range") := by
  refine ⟨?_, ?_, ?_, ?_⟩
  · intro hge
    simp only [cropFromMask, hs, hm]
    rw [if_pos hge]
  · intro h0 hlt
    simp only [cropFromMask, pyIndex, hs, hm]
    rw [if_neg (by omega), if_pos h0, if_pos hlt]
  · intro hge hneg
    simp only [cropFromMask, pyIndex, hs, hm]
    rw [if_neg (by omega), if_neg (by omega), if_pos hge]
  · intro hlt
    simp only [cropFromMask, pyIndex, hs, hm]
    rw [if_neg (by omega), if_neg (by omega), if_neg (by omega)]

/-- Claim C2 witness: the four branches at concrete indices 5, 0, -1, -2
against the one-mask fixture session. -/
theorem crop_mask_index_range_witness :
    cropFromMask svcWithMask "s1" 5 "o.png" "original" 0
      = Response.fail "Mask index 5 out of range (have 1 masks)"
  ∧ (cropFromMask svcWithMask "s1" 0 "o.png" "original" 0).success = true
  ∧ (cropFromMask svcWithMask "s1" (-1) "o.png" "original" 0).success = true
  ∧ cropFromMask svcWithMask "s1" (-2) "o.png" "original" 0
      = Response.fail "list index out of range" := by
  have h5 := (crop_mask_index_range svcWithMask "s1" sessWithMask [sampleMask] 5
    "o.png" "original" 0 rfl rfl).1 (by decide)
  have h0 := (crop_mask_index_range svcWithMask "s1" sessWithMask [sampleMask] 0
    "o.png" "original" 0 rfl rfl).2.1 (by decide) (by decide)
  have hn1 := (crop_mask_index_range svcWithMask "s1" sessWithMask [sampleMask] (-1)
    "o.png" "original" 0 rfl rfl).2.2.1 (by decide) (by decide)
  have hn2 := (crop_mask_index_range svcWithMask "s1" sessWithMask [sampleMask] (-2)
    "o.png" "original" 0 rfl rfl).2.2.2 (by decide)
  exact ⟨h5.trans (by decide), by rw [h0]; decide, by rw [hn1]; decide, hn2⟩

/-- Claim C3, counterexample: with 2 points and 1 label (a length mismatch)
and a model oracle that accepts the call, `predict_click` succeeds — the
service performs no length validation and raises no `InvalidInput`. -/
theorem click_length_mismatch_counterexample :
    (predictClick extOk svcFresh "s1" [(1, 1), (2, 2)] [1] true false).2.success
      = true := rfl

/-- Claim C3, amended: `predict_click` does not compare the lengths of
`points` and `labels`; both are forwarded verbatim to the model, and the
outcome is entirely the model's — a model exception surfaces as a generic
error response with the model's message, and a model success is returned
as success (no `InvalidInput` classification exists in the service). -/
theorem predictClick_no_length_check (ext : Ext) (svc : Sessions) (sid : String)
    (sess : Session) (pts : List (ℚ × ℚ)) (lbls : List ℤ) (mm upl : Bool)
    (hs : lookupSession svc sid = some sess) :
    ((mkKwargs sess pts lbls mm upl).pointCoords = pts
      ∧ (mkKwargs sess pts lbls mm upl).pointLabels = lbls)
  ∧ (∀ e, ext.predictInst sess.state (mkKwargs sess pts lbls mm upl) = .error e →
        predictClick ext svc sid pts lbls mm upl = (svc, Response.fail e))
  ∧ (∀ out, ext.predictInst sess.state (mkKwargs sess pts lbls mm upl) = .ok out →
        out.scores ≠ [] →
        (predictClick ext svc sid pts lbls mm upl).2.success = true) := by
  refine ⟨⟨rfl, rfl⟩, ?_, ?_⟩
  · intro e he
    simp only [predictClick, hs, he]
  · intro out hout hsc
    simp only [predictClick, hs, hout]
    rw [if_neg (fun hcon => hsc (List.length_eq_zero.mp hcon.2))]
    rfl

/-- Claim C3 witness: both outcomes at mismatched concrete inputs. -/
theorem predictClick_no_length_check_witness :
    predictClick extFail svcFresh "s1" [(1, 1), (2, 2)] [1] true false
      = (svcFresh, Response.fail "boom")
  ∧ (predictClick extOk svcFresh "s1" [(1, 1), (2, 2)] [1] true false).2.success
      = true :=
  ⟨(predictClick_no_length_check extFail svcFresh "s1" sessFresh [(1, 1), (2, 2)] [1]
      true false rfl).2.1 "boom" rfl,
   (predictClick_no_length_check extOk svcFresh "s1" sessFresh [(1, 1), (2, 2)] [1]
      true false rfl).2.2 outOne rfl (by decide)⟩

/-- Claim C4: after readiness the loop writes exactly one response per
non-blank input line and never stops early; a line that is not valid JSON
yields the fixed `Invalid JSON` error response, an object with an unknown
command yields `Unknown command: <name>`, and an exception raised inside a
handler (here: the model call) is converted to a failure response carrying
the exception message.  Every response is by construction `ok` or `fail`,
i.e. carries a `success` boolean. -/
theorem dispatch_protocol (ext : Ext) (svc : Sessions) :
    (∀ lines, (runLoop ext svc lines).2.length
        = lines.countP (fun l => match l with | .empty => false | _ => true))
  ∧ processLine ext svc .malformed = (svc, some (Response.fail "Invalid JSON"))
  ∧ (∀ name, processLine ext svc (.req (.unknown name))
        = (svc, some (Response.fail ("Unknown command: " ++ name))))
  ∧ (∀ sid sess pts lbls mm upl e, lookupSession svc sid = some sess →
      ext.predictInst sess.state (mkKwargs sess pts lbls mm upl) = .error e →
      (processLine ext svc (.req (.click sid pts lbls mm upl))).2
        = some (Response.fail e)) := by
  refine ⟨?_, rfl, fun name => rfl, ?_⟩
  · intro lines
    induction lines generalizing svc with
    | nil => rfl
    | cons l rest ih =>
        cases l <;> simp [runLoop, processLine, List.countP_cons, ih]
  · intro sid sess pts lbls mm upl e hs he
    simp only [processLine, handleCommand, predictClick, hs, he]

/-- Claim C4 witness: the handler-exception branch at a concrete failing
model oracle. -/
theorem dispatch_protocol_witness :
    (processLine extFail svcFresh (.req (.click "s1" [] [] true false))).2
      = some (Response.fail "boom") :=
  (dispatch_protocol extFail svcFresh).2.2.2 "s1" sessFresh [] [] true false "boom"
    rfl rfl

/-- Claim C5: after a successful `predict_click` (model returns nonempty,
length-aligned scores and logits), the session's `priorLogits` hold exactly
the logits at the first index achieving the maximum score, while
`lastMasks`/`lastScores` hold the full returned sequences; the response
carries the encodings of all masks and all scores in the model's original
order, index-aligned. -/
theorem predictClick_stores_best (ext : Ext) (svc : Sessions) (sid : String)
    (sess : Session) (pts : List (ℚ × ℚ)) (lbls : List ℤ) (mm upl : Bool)
    (out : PredictOut) (hs : lookupSession svc sid = some sess)
    (hp : ext.predictInst sess.state (mkKwargs sess pts lbls mm upl) = .ok out)
    (hsc : out.scores ≠ []) (hlen : out.logits.length = out.scores.length) :
    ∃ sess2, lookupSession (predictClick ext svc sid pts lbls mm upl).1 sid = some sess2
      ∧ sess2.lastMasks = some out.masks
      ∧ sess2.lastScores = some out.scores
      ∧ sess2.logits = some [out.logits.getD (argmaxIdx out.scores) []]
      ∧ argmaxIdx out.scores < out.scores.length
      ∧ (∀ j, j < out.scores.length →
          out.scores.getD j 0 ≤ out.scores.getD (argmaxIdx out.scores) 0)
      ∧ (∀ j, j < argmaxIdx out.scores →
          out.scores.getD j 0 < out.scores.getD (argmaxIdx out.scores) 0)
      ∧ (predictClick ext svc sid pts lbls mm upl).2
          = Response.ok (.predicted (out.masks.map encodeMask) out.scores
              out.masks.length "Segmentation successful") := by
  have hargl : argmaxIdx out.scores < out.scores.length :=
    argmaxIdx_lt_length out.scores hsc
  have hlpos : 0 < out.logits.length := by omega
  have hk : argmaxIdx out.scores < out.logits.length := by omega
  have hslice : (out.logits.drop (argmaxIdx out.scores)).take 1
      = [out.logits.getD (argmaxIdx out.scores) []] := by
    have h1 : (out.logits.drop (argmaxIdx out.scores)).take 1
        = [out.logits[argmaxIdx out.scores]] := by
      rw [List.drop_eq_getElem_cons hk]
      rfl
    have h2 : out.logits.getD (argmaxIdx out.scores) []
        = out.logits[argmaxIdx out.scores] := by
      rw [List.getD_eq_getElem?_getD, List.getElem?_eq_getElem hk]
      rfl
    rw [h1, h2]
  simp only [predictClick, hs, hp]
  rw [if_neg (fun hcon => hsc (List.length_eq_zero.mp hcon.2)), if_pos hlpos]
  refine ⟨_, lookup_insert_self svc sid _, rfl, rfl, congrArg some hslice, hargl,
    fun j hj => argmaxIdx_is_max out.scores j hj,
    fun j hj => argmaxIdx_first out.scores j hj, rfl⟩

/-- Claim C5 witness: concrete one-mask prediction on the fixture session. -/
theorem predictClick_stores_best_witness :
    ∃ sess2, lookupSession (predictClick extOk svcFresh "s1" [(0, 0)] [1] true false).1
        "s1" = some sess2
      ∧ sess2.lastMasks = some outOne.masks
      ∧ sess2.lastScores = some outOne.scores
      ∧ sess2.logits = some [outOne.logits.getD (argmaxIdx outOne.scores) []]
      ∧ argmaxIdx outOne.scores < outOne.scores.length
      ∧ (∀ j, j < outOne.scores.length →
          outOne.scores.getD j 0 ≤ outOne.scores.getD (argmaxIdx outOne.scores) 0)
      ∧ (∀ j, j < argmaxIdx outOne.scores →
          outOne.scores.getD j 0 < outOne.scores.getD (argmaxIdx outOne.scores) 0)
      ∧ (predictClick extOk svcFresh "s1" [(0, 0)] [1] true false).2
          = Response.ok (.predicted (outOne.masks.map encodeMask) outOne.scores
              outOne.masks.length "Segmentation successful") :=
  predictClick_stores_best extOk svcFresh "s1" sessFresh [(0, 0)] [1] true false
    outOne rfl rfl (by decide) rfl

/-- Claim C6: `predict_click` with `use_previous_logits = true` on a session
holding no prior logits behaves exactly as with the flag false — no prior
mask input reaches the model and the call does not fail on that account. -/
theorem predictClick_no_prior_logits_noop (ext : Ext) (svc : Sessions) (sid : String)
    (sess : Session) (pts : List (ℚ × ℚ)) (lbls : List ℤ) (mm : Bool)
    (hs : lookupSession svc sid = some sess) (hl : sess.logits = none) :
    predictClick ext svc sid pts lbls mm true = predictClick ext svc sid pts lbls mm false := by
  have hk : mkKwargs sess pts lbls mm true = mkKwargs sess pts lbls mm false := by
    simp only [mkKwargs, hl]
    rfl
  simp only [predictClick, hs, hk]

/-- Claim C6 witness: the fixture session has no stored logits. -/
theorem predictClick_no_prior_logits_noop_witness :
    predictClick extOk svcFresh "s1" [(0, 0)] [1] true true
      = predictClick extOk svcFresh "s1" [(0, 0)] [1] true false :=
  predictClick_no_prior_logits_noop extOk svcFresh "s1" sessFresh [(0, 0)] [1] true
    rfl rfl

/-- Claim C10: the session store is mutated only after the external calls
succeed — a decode failure or a failing `set_image` leaves the store exactly
as it was (no session created or replaced) with an error response, and a
failing point-prediction call leaves the store (hence the session's logits
and last masks/scores) untouched with an error response. -/
theorem mutation_only_after_success (ext : Ext) (svc : Sessions) :
    (∀ path sid e, ext.openImage path = .error e →
        loadImage ext svc path sid = (svc, Response.fail e))
  ∧ (∀ path sid img e, ext.openImage path = .ok img → ext.setImage img = .error e →
        loadImage ext svc path sid = (svc, Response.fail e))
  ∧ (∀ sid sess pts lbls mm upl e, lookupSession svc sid = some sess →
        ext.predictInst sess.state (mkKwargs sess pts lbls mm upl) = .error e →
        predictClick ext svc sid pts lbls mm upl = (svc, Response.fail e)) := by
  refine ⟨?_, ?_, ?_⟩
  · intro path sid e he
    simp only [loadImage, he]
  · intro path sid img e ho he
    simp only [loadImage, ho, he]
  · intro sid sess pts lbls mm upl e hs he
    simp only [predictClick, hs, he]

/-- Claim C10 witness: all three failure points at concrete oracles. -/
theorem mutation_only_after_success_witness :
    loadImage extFail svcFresh "p.png" "s2" = (svcFresh, Response.fail "boom")
  ∧ loadImage extOpenOkSetFail svcFresh "p.png" "s2" = (svcFresh, Response.fail "boom")
  ∧ predictClick extFail svcFresh "s1" [(0, 0)] [1] true false
      = (svcFresh, Response.fail "boom") :=
  ⟨(mutation_only_after_success extFail svcFresh).1 "p.png" "s2" "boom" rfl,
   (mutation_only_after_success extOpenOkSetFail svcFresh).2.1 "p.png" "s2"
     sampleImage "boom" rfl rfl,
   (mutation_only_after_success extFail svcFresh).2.2 "s1" sessFresh [(0, 0)] [1]
     true false "boom" rfl rfl⟩

/-- Claim C7, counterexample: a successful crop of a 1x1 image with the
default padding 10 reports crop width 0, not a positive width — the
reported width is `cmax - cmin`, one less than the pixel extent. -/
theorem crop_width_zero_counterexample :
    (cropMask sampleImage sampleMask "o.png" "original" 10).map CropOk.cropWidth
      = Except.ok 0 := by decide

/-- Claim C7, amended: for every successful crop with nonnegative padding on
an image whose dimensions match the mask, the reported bounding box equals
the tight foreground box expanded by `padding` on every side and clamped to
`[0, width-1]` horizontally and `[0, height-1]` vertically; the box lies
within `[0,width) x [0,height)` and the reported crop width and height
(`x2-x1`, `y2-y1`) are nonnegative (they are zero when the padded box spans
a single column or row, so "positive" does not hold in general). -/
theorem crop_bbox_clamped (image : Image) (mask : Mask) (path mode : String)
    (padding : ℤ) (res : CropOk)
    (hpad : 0 ≤ padding)
    (hH : imgHeight image = mask.length)
    (hW : imgWidth image = (mask.headD []).length)
    (hok : cropMask image mask path mode padding = .ok res) :
    ∃ rmin rmax cmin cmax : Nat,
      firstTrue (rowsAny (maskBool mask)) = some rmin
      ∧ lastTrue (rowsAny (maskBool mask)) = some rmax
      ∧ firstTrue (colsAny (maskBool mask) (mask.headD []).length) = some cmin
      ∧ lastTrue (colsAny (maskBool mask) (mask.headD []).length) = some cmax
      ∧ res.bbox = [max 0 ((cmin : ℤ) - padding), max 0 ((rmin : ℤ) - padding),
            min ((imgWidth image : ℤ) - 1) ((cmax : ℤ) + padding),
            min ((imgHeight image : ℤ) - 1) ((rmax : ℤ) + padding)]
      ∧ res.cropWidth = min ((imgWidth image : ℤ) - 1) ((cmax : ℤ) + padding)
            - max 0 ((cmin : ℤ) - padding)
      ∧ res.cropHeight = min ((imgHeight image : ℤ) - 1) ((rmax : ℤ) + padding)
            - max 0 ((rmin : ℤ) - padding)
      ∧ 0 ≤ max 0 ((cmin : ℤ) - padding)
      ∧ max 0 ((cmin : ℤ) - padding)
          ≤ min ((imgWidth image : ℤ) - 1) ((cmax : ℤ) + padding)
      ∧ min ((imgWidth image : ℤ) - 1) ((cmax : ℤ) + padding) < (imgWidth image : ℤ)
      ∧ 0 ≤ max 0 ((rmin : ℤ) - padding)
      ∧ max 0 ((rmin : ℤ) - padding)
          ≤ min ((imgHeight image : ℤ) - 1) ((rmax : ℤ) + padding)
      ∧ min ((imgHeight image : ℤ) - 1) ((rmax : ℤ) + padding) < (imgHeight image : ℤ)
      ∧ 0 ≤ res.cropWidth ∧ 0 ≤ res.cropHeight := by
  obtain ⟨rmin, rmax, cmin, cmax, hf1, hf2, hf3, hf4⟩ :=
    cropMask_ok_boxes image mask path mode padding res hok
  simp only [cropMask, hf1, hf2, hf3, hf4] at hok
  obtain ⟨img, hsaved, hres⟩ := except_map_ok _ _ _ hok
  subst hres
  have hcm : cmin ≤ cmax := firstTrue_le_lastTrue _ _ _ hf3 hf4
  have hrm : rmin ≤ rmax := firstTrue_le_lastTrue _ _ _ hf1 hf2
  have hcw : cmax < (mask.headD []).length := by
    have := (lastTrue_spec _ _ hf4).1
    rwa [length_colsAny] at this
  have hrh : rmax < mask.length := by
    have := (lastTrue_spec _ _ hf2).1
    rw [length_rowsAny] at this
    simpa [maskBool] using this
  refine ⟨rmin, rmax, cmin, cmax, hf1, hf2, hf3, hf4, ?_, ?_, ?_, ?_, ?_, ?_,
    ?_, ?_, ?_, ?_, ?_⟩
  · rw [hW, hH]
  · rw [hW]
  · rw [hH]
  · exact le_max_left 0 _
  · rw [hW]
    omega
  · rw [hW]
    omega
  · exact le_max_left 0 _
  · rw [hH]
    omega
  · rw [hH]
    omega
  · show (0 : ℤ) ≤ min (((mask.headD []).length : ℤ) - 1) ((cmax : ℤ) + padding)
      - max 0 ((cmin : ℤ) - padding)
    omega
  · show (0 : ℤ) ≤ min ((mask.length : ℤ) - 1) ((rmax : ℤ) + padding)
      - max 0 ((rmin : ℤ) - padding)
    omega

/-- Claim C7 witness: a 2x2 image with one foreground pixel and padding 1. -/
theorem crop_bbox_clamped_witness :
    ∃ rmin rmax cmin cmax : Nat,
      firstTrue (rowsAny (maskBool mask2)) = some rmin
      ∧ lastTrue (rowsAny (maskBool mask2)) = some rmax
      ∧ firstTrue (colsAny (maskBool mask2) (mask2.headD []).length) = some cmin
      ∧ lastTrue (colsAny (maskBool mask2) (mask2.headD []).length) = some cmax
      ∧ res7.bbox = [max 0 ((cmin : ℤ) - 1), max 0 ((rmin : ℤ) - 1),
            min ((imgWidth img2 : ℤ) - 1) ((cmax : ℤ) + 1),
            min ((imgHeight img2 : ℤ) - 1) ((rmax : ℤ) + 1)]
      ∧ res7.cropWidth = min ((imgWidth img2 : ℤ) - 1) ((cmax : ℤ) + 1)
            - max 0 ((cmin : ℤ) - 1)
      ∧ res7.cropHeight = min ((imgHeight img2 : ℤ) - 1) ((rmax : ℤ) + 1)
            - max 0 ((rmin : ℤ) - 1)
      ∧ 0 ≤ max 0 ((cmin : ℤ) - 1)
      ∧ max 0 ((cmin : ℤ) - 1) ≤ min ((imgWidth img2 : ℤ) - 1) ((cmax : ℤ) + 1)
      ∧ min ((imgWidth img2 : ℤ) - 1) ((cmax : ℤ) + 1) < (imgWidth img2 : ℤ)
      ∧ 0 ≤ max 0 ((rmin : ℤ) - 1)
      ∧ max 0 ((rmin : ℤ) - 1) ≤ min ((imgHeight img2 : ℤ) - 1) ((rmax : ℤ) + 1)
      ∧ min ((imgHeight img2 : ℤ) - 1) ((rmax : ℤ) + 1) < (imgHeight img2 : ℤ)
      ∧ 0 ≤ res7.cropWidth ∧ 0 ≤ res7.cropHeight :=
  crop_bbox_clamped img2 mask2 "o.png" "original" 1 res7 (by decide) (by decide)
    (by decide) (by decide)

/-- Claim C8: a selected mask whose binarization at threshold 0.5 has no
foreground pixel makes the crop fail with the `EmptyMask` message — no crop
result (hence no output file) is produced; with at least one foreground
pixel (on a rectangular mask) the computed box indices are exactly the
min/max foreground row and the min/max foreground column, and the call
proceeds past the empty-mask check (producing a crop, or at worst the
unknown-background-mode error — never `EmptyMask`). -/
theorem crop_empty_and_tight (image : Image) (mask : Mask) (path mode : String)
    (padding : ℤ) :
    ((¬ ∃ i j, Fg mask i j) →
        cropMask image mask path mode padding = .error "Mask is empty")
  ∧ (∀ i0 j0, Fg mask i0 j0 →
      (∀ row ∈ mask, row.length = (mask.headD []).length) →
      ∃ rmin rmax cmin cmax : Nat,
        firstTrue (rowsAny (maskBool mask)) = some rmin
        ∧ lastTrue (rowsAny (maskBool mask)) = some rmax
        ∧ firstTrue (colsAny (maskBool mask) (mask.headD []).length) = some cmin
        ∧ lastTrue (colsAny (maskBool mask) (mask.headD []).length) = some cmax
        ∧ (∃ j, Fg mask rmin j) ∧ (∃ j, Fg mask rmax j)
        ∧ (∃ i, Fg mask i cmin) ∧ (∃ i, Fg mask i cmax)
        ∧ (∀ i j, Fg mask i j → rmin ≤ i ∧ i ≤ rmax ∧ cmin ≤ j ∧ j ≤ cmax)
        ∧ ((∃ r, cropMask image mask path mode padding = .ok r)
            ∨ cropMask image mask path mode padding
                = .error ("Unknown background_mode: " ++ mode))) := by
  constructor
  · intro hno
    have h1 : firstTrue (rowsAny (maskBool mask)) = none := by
      cases hf : firstTrue (rowsAny (maskBool mask)) with
      | none => rfl
      | some k =>
          rcases (rowFlag_iff mask k).mp (firstTrue_spec _ k hf).1 with ⟨j, hj⟩
          exact absurd ⟨k, j, hj⟩ hno
    simp only [cropMask, h1]
  · intro i0 j0 hfg hrect
    obtain ⟨rmin, rmax, cmin, cmax, hf1, hf2, hf3, hf4⟩ :=
      tight_box_exists mask i0 j0 hfg hrect
    refine ⟨rmin, rmax, cmin, cmax, hf1, hf2, hf3, hf4, ?_, ?_, ?_, ?_, ?_, ?_⟩
    · exact (rowFlag_iff mask rmin).mp (firstTrue_spec _ _ hf1).1
    · exact (rowFlag_iff mask rmax).mp (lastTrue_spec _ _ hf2).2.1
    · exact ((colFlag_iff mask _ cmin).mp (firstTrue_spec _ _ hf3).1).2
    · exact ((colFlag_iff mask _ cmax).mp (lastTrue_spec _ _ hf4).2.1).2
    · intro i j hij
      have hbij := Fg_bounds mask i j hij
      have hrowm : mask.getD i [] = mask[i] := by
        simp [List.getD_eq_getElem?_getD, List.getElem?_eq_getElem hbij.1]
      have hjw : j < (mask.headD []).length := by
        have := hrect mask[i] (List.getElem_mem hbij.1)
        rw [← hrowm] at this
        omega
      have hrt : (rowsAny (maskBool mask)).getD i false = true :=
        (rowFlag_iff mask i).mpr ⟨j, hij⟩
      have hct : (colsAny (maskBool mask) (mask.headD []).length).getD j false = true :=
        (colFlag_iff mask _ j).mpr ⟨hjw, i, hij⟩
      refine ⟨?_, ?_, ?_, ?_⟩
      · by_contra hlt
        have hfalse := (firstTrue_spec _ _ hf1).2 i (by omega)
        rw [hrt] at hfalse
        exact Bool.noConfusion hfalse
      · by_contra hlt
        have hfalse := (lastTrue_spec _ _ hf2).2.2 i (by omega)
        rw [hrt] at hfalse
        exact Bool.noConfusion hfalse
      · by_contra hlt
        have hfalse := (firstTrue_spec _ _ hf3).2 j (by omega)
        rw [hct] at hfalse
        exact Bool.noConfusion hfalse
      · by_contra hlt
        have hfalse := (lastTrue_spec _ _ hf4).2.2 j (by omega)
        rw [hct] at hfalse
        exact Bool.noConfusion hfalse
    · by_cases m1 : mode = "transparent"
      · refine Or.inl ?_
        simp only [cropMask, hf1, hf2, hf3, hf4]
        exact exists_ok_map _ _ _ (by rw [if_pos m1])
      by_cases m2 : mode = "white"
      · refine Or.inl ?_
        simp only [cropMask, hf1, hf2, hf3, hf4]
        exact exists_ok_map _ _ _ (by rw [if_neg m1, if_pos m2])
      by_cases m3 : mode = "black"
      · refine Or.inl ?_
        simp only [cropMask, hf1, hf2, hf3, hf4]
        exact exists_ok_map _ _ _ (by rw [if_neg m1, if_neg m2, if_pos m3])
      by_cases m4 : mode = "original"
      · refine Or.inl ?_
        simp only [cropMask, hf1, hf2, hf3, hf4]
        exact exists_ok_map _ _ _ (by rw [if_neg m1, if_neg m2, if_neg m3, if_pos m4])
      · refine Or.inr ?_
        simp only [cropMask, hf1, hf2, hf3, hf4]
        rw [if_neg m1, if_neg m2, if_neg m3, if_neg m4]
        rfl

/-- Claim C8 witness: the all-zero 1x1 mask hits `EmptyMask`; the one-pixel
foreground mask yields the tight box at (0,0) and a successful crop. -/
theorem crop_empty_and_tight_witness :
    cropMask sampleImage maskZero "o.png" "original" 0 = .error "Mask is empty"
  ∧ (∃ rmin rmax cmin cmax : Nat,
      firstTrue (rowsAny (maskBool sampleMask)) = some rmin
      ∧ lastTrue (rowsAny (maskBool sampleMask)) = some rmax
      ∧ firstTrue (colsAny (maskBool sampleMask) (sampleMask.headD []).length)
          = some cmin
      ∧ lastTrue (colsAny (maskBool sampleMask) (sampleMask.headD []).length)
          = some cmax
      ∧ (∃ j, Fg sampleMask rmin j) ∧ (∃ j, Fg sampleMask rmax j)
      ∧ (∃ i, Fg sampleMask i cmin) ∧ (∃ i, Fg sampleMask i cmax)
      ∧ (∀ i j, Fg sampleMask i j → rmin ≤ i ∧ i ≤ rmax ∧ cmin ≤ j ∧ j ≤ cmax)
      ∧ ((∃ r, cropMask sampleImage sampleMask "o.png" "original" 0 = .ok r)
          ∨ cropMask sampleImage sampleMask "o.png" "original" 0
              = .error ("Unknown background_mode: " ++ "original"))) := by
  constructor
  · refine (crop_empty_and_tight sampleImage maskZero "o.png" "original" 0).1 ?_
    rintro ⟨i, j, h⟩
    have hb := Fg_bounds maskZero i j h
    have hi : i = 0 := by
      have := hb.1
      simp [maskZero] at this
      omega
    subst hi
    have hj : j = 0 := by
      have := hb.2
      simp [maskZero] at this
      omega
    subst hj
    simp only [Fg, maskZero, List.getD_cons_zero] at h
    exact absurd h (by norm_num)
  · exact (crop_empty_and_tight sampleImage sampleMask "o.png" "original" 0).2 0 0
      (by norm_num [Fg, sampleMask, List.getD_cons_zero]) (by decide)

/-- Claim C9: with `background_mode = "white"` (resp. `"black"`) every pixel
of the saved crop equals the source-image pixel where the binarized mask is
foreground and the solid fill color elsewhere; with `"original"` every pixel
equals the source image over the bounding-box region; and any mode other
than transparent/white/black/original fails with `UnknownBackgroundMode`
naming the offending value, producing no crop result (hence no file). -/
theorem crop_background_pixels (image : Image) (mask : Mask) (path : String)
    (padding : ℤ) :
    (∀ res g, cropMask image mask path "white" padding = .ok res →
        res.savedImage = .rgb g →
        ∃ y1 x1 : Nat, res.bbox.getD 1 0 = (y1 : ℤ) ∧ res.bbox.getD 0 0 = (x1 : ℤ)
          ∧ ∀ r c (d : Pixel), r < g.length → c < (g.getD r []).length →
              (g.getD r []).getD c d
                = if Fg mask (y1 + r) (x1 + c)
                  then (image.getD (y1 + r) []).getD (x1 + c) d
                  else (255, 255, 255))
  ∧ (∀ res g, cropMask image mask path "black" padding = .ok res →
        res.savedImage = .rgb g →
        ∃ y1 x1 : Nat, res.bbox.getD 1 0 = (y1 : ℤ) ∧ res.bbox.getD 0 0 = (x1 : ℤ)
          ∧ ∀ r c (d : Pixel), r < g.length → c < (g.getD r []).length →
              (g.getD r []).getD c d
                = if Fg mask (y1 + r) (x1 + c)
                  then (image.getD (y1 + r) []).getD (x1 + c) d
                  else (0, 0, 0))
  ∧ (∀ res g, cropMask image mask path "original" padding = .ok res →
        res.savedImage = .rgb g →
        ∃ y1 x1 : Nat, res.bbox.getD 1 0 = (y1 : ℤ) ∧ res.bbox.getD 0 0 = (x1 : ℤ)
          ∧ ∀ r c (d : Pixel), r < g.length → c < (g.getD r []).length →
              (g.getD r []).getD c d = (image.getD (y1 + r) []).getD (x1 + c) d)
  ∧ (∀ mode, mode ≠ "transparent" → mode ≠ "white" → mode ≠ "black" →
        mode ≠ "original" → (∃ i j, Fg mask i j) →
        (∀ row ∈ mask, row.length = (mask.headD []).length) →
        cropMask image mask path mode padding
          = .error ("Unknown background_mode: " ++ mode)) := by
  refine ⟨?_, ?_, ?_, ?_⟩
  · intro res g hok hg
    obtain ⟨rmin, rmax, cmin, cmax, hf1, hf2, hf3, hf4⟩ :=
      cropMask_ok_boxes image mask path "white" padding res hok
    simp only [cropMask, hf1, hf2, hf3, hf4] at hok
    rw [if_pos trivial] at hok
    obtain ⟨img, hsaved, hres⟩ := except_map_ok _ _ _ hok
    subst hres
    have hv : img = CropImage.rgb (maskedFill (255, 255, 255)
        (slice2d image (max 0 ((rmin : ℤ) - padding)).toNat
          ((min ((mask.length : ℤ) - 1) ((rmax : ℤ) + padding)).toNat + 1)
          (max 0 ((cmin : ℤ) - padding)).toNat
          ((min (((mask.headD []).length : ℤ) - 1) ((cmax : ℤ) + padding)).toNat + 1))
        (slice2d (maskBool mask) (max 0 ((rmin : ℤ) - padding)).toNat
          ((min ((mask.length : ℤ) - 1) ((rmax : ℤ) + padding)).toNat + 1)
          (max 0 ((cmin : ℤ) - padding)).toNat
          ((min (((mask.headD []).length : ℤ) - 1) ((cmax : ℤ) + padding)).toNat + 1)))
        := (Except.ok.inj hsaved).symm
    have hg2 : img = CropImage.rgb g := hg
    have hgM := CropImage.rgb.inj (hg2.symm.trans hv)
    refine ⟨(max 0 ((rmin : ℤ) - padding)).toNat,
      (max 0 ((cmin : ℤ) - padding)).toNat,
      (Int.toNat_of_nonneg (le_max_left _ _)).symm,
      (Int.toNat_of_nonneg (le_max_left _ _)).symm, ?_⟩
    intro r c d hr hc
    rw [hgM] at hr hc ⊢
    exact maskedFill_slice_pointwise image mask (255, 255, 255) _ _ _ _ r c d hr hc
  · intro res g hok hg
    obtain ⟨rmin, rmax, cmin, cmax, hf1, hf2, hf3, hf4⟩ :=
      cropMask_ok_boxes image mask path "black" padding res hok
    simp only [cropMask, hf1, hf2, hf3, hf4] at hok
    rw [if_pos trivial] at hok
    obtain ⟨img, hsaved, hres⟩ := except_map_ok _ _ _ hok
    subst hres
    have hv : img = CropImage.rgb (maskedFill (0, 0, 0)
        (slice2d image (max 0 ((rmin : ℤ) - padding)).toNat
          ((min ((mask.length : ℤ) - 1) ((rmax : ℤ) + padding)).toNat + 1)
          (max 0 ((cmin : ℤ) - padding)).toNat
          ((min (((mask.headD []).length : ℤ) - 1) ((cmax : ℤ) + padding)).toNat + 1))
        (slice2d (maskBool mask) (max 0 ((rmin : ℤ) - padding)).toNat
          ((min ((mask.length : ℤ) - 1) ((rmax : ℤ) + padding)).toNat + 1)
          (max 0 ((cmin : ℤ) - padding)).toNat
          ((min (((mask.headD []).length : ℤ) - 1) ((cmax : ℤ) + padding)).toNat + 1)))
        := (Except.ok.inj hsaved).symm
    have hg2 : img = CropImage.rgb g := hg
    have hgM := CropImage.rgb.inj (hg2.symm.trans hv)
    refine ⟨(max 0 ((rmin : ℤ) - padding)).toNat,
      (max 0 ((cmin : ℤ) - padding)).toNat,
      (Int.toNat_of_nonneg (le_max_left _ _)).symm,
      (Int.toNat_of_nonneg (le_max_left _ _)).symm, ?_⟩
    intro r c d hr hc
    rw [hgM] at hr hc ⊢
    exact maskedFill_slice_pointwise image mask (0, 0, 0) _ _ _ _ r c d hr hc
  · intro res g hok hg
    obtain ⟨rmin, rmax, cmin, cmax, hf1, hf2, hf3, hf4⟩ :=
      cropMask_ok_boxes image mask path "original" padding res hok
    simp only [cropMask, hf1, hf2, hf3, hf4] at hok
    rw [if_pos trivial] at hok
    obtain ⟨img, hsaved, hres⟩ := except_map_ok _ _ _ hok
    subst hres
    have hv : img = CropImage.rgb
        (slice2d image (max 0 ((rmin : ℤ) - padding)).toNat
          ((min ((mask.length : ℤ) - 1) ((rmax : ℤ) + padding)).toNat + 1)
          (max 0 ((cmin : ℤ) - padding)).toNat
          ((min (((mask.headD []).length : ℤ) - 1) ((cmax : ℤ) + padding)).toNat + 1))
        := (Except.ok.inj hsaved).symm
    have hg2 : img = CropImage.rgb g := hg
    have hgM := CropImage.rgb.inj (hg2.symm.trans hv)
    refine ⟨(max 0 ((rmin : ℤ) - padding)).toNat,
      (max 0 ((cmin : ℤ) - padding)).toNat,
      (Int.toNat_of_nonneg (le_max_left _ _)).symm,
      (Int.toNat_of_nonneg (le_max_left _ _)).symm, ?_⟩
    intro r c d hr hc
    rw [hgM] at hr hc ⊢
    have hr2 : r < (min ((mask.length : ℤ) - 1) ((rmax : ℤ) + padding)).toNat + 1
        - (max 0 ((rmin : ℤ) - padding)).toNat :=
      lt_of_lt_of_le hr (slice2d_length_le image _ _ _ _)
    have hc2 : c < (min (((mask.headD []).length : ℤ) - 1) ((cmax : ℤ) + padding)).toNat
        + 1 - (max 0 ((cmin : ℤ) - padding)).toNat :=
      lt_of_lt_of_le hc (slice2d_row_length_le image _ _ _ _ r)
    exact slice2d_entry image _ _ _ _ r c d hr2 hc2
  · rintro mode h1 h2 h3 h4 ⟨i0, j0, hfg⟩ hrect
    obtain ⟨rmin, rmax, cmin, cmax, hf1, hf2, hf3, hf4⟩ :=
      tight_box_exists mask i0 j0 hfg hrect
    simp only [cropMask, hf1, hf2, hf3, hf4]
    rw [if_neg h1, if_neg h2, if_neg h3, if_neg h4]
    rfl

/-- Claim C9 witness: a 1x2 image with one foreground pixel, white mode and
padding 1, plus the unknown-mode branch. -/
theorem crop_background_pixels_witness :
    (∃ y1 x1 : Nat, res9w.bbox.getD 1 0 = (y1 : ℤ) ∧ res9w.bbox.getD 0 0 = (x1 : ℤ)
      ∧ ∀ r c (d : Pixel),
          r < ([[(9, 9, 9), (255, 255, 255)]] : Image).length →
          c < (([[(9, 9, 9), (255, 255, 255)]] : Image).getD r []).length →
          (([[(9, 9, 9), (255, 255, 255)]] : Image).getD r []).getD c d
            = if Fg mask12 (y1 + r) (x1 + c)
              then (img12.getD (y1 + r) []).getD (x1 + c) d
              else (255, 255, 255))
  ∧ cropMask img12 mask12 "o.png" "weird" 1
      = .error ("Unknown background_mode: " ++ "weird") :=
  ⟨(crop_background_pixels img12 mask12 "o.png" 1).1 res9w
      [[(9, 9, 9), (255, 255, 255)]] (by decide) rfl,
   (crop_background_pixels img12 mask12 "o.png" 1).2.2.2 "weird" (by decide)
      (by decide) (by decide) (by decide)
      ⟨0, 0, by norm_num [Fg, mask12, List.getD_cons_zero]⟩ (by decide)⟩

end Sam3
